import Mathlib

/-!
Shallow embedding of the `valuables` crate (src/value.rs, src/visitor.rs):
a type-erased value carrier (`Value`), the `Visitable` capability, and the
streaming `Visit` protocol with its orchestration helpers.

Modelling conventions:
- A Rust visitor method `fn m(&mut self, ...) -> VisitResult` (with
  `VisitResult = Result<(), Error>`) is modelled as a function
  `... → σ → σ × Option E`: the visitor's hidden state `σ` is threaded
  explicitly, and the method's `Result` is `none` for `Ok(())` or `some e`
  for `Err(e)`.  The state component is produced even on error, because a
  Rust `&mut self` call mutates the receiver regardless of the `Result` it
  returns.  The error type `E` is kept abstract: `struct Error` in
  visitor.rs is an empty placeholder ("TODO"), so only its role in
  propagation is meaningful.
- The `?` operator is modelled by `vthen`: on `some e` the computation
  stops and returns the error with the state reached so far; on `none` it
  continues.
- The types with built-in `Visitable` impls are collected in the inductive
  `Val`; each constructor corresponds to one impl in value.rs, and
  `Val.visit` has one branch per impl.
- Machine integers carry their mathematical value (`Nat` for unsigned,
  `Int` for signed).  The Rust widenings `u16/u32/usize as u64` and
  `i8/i16/i32/isize as i64` are value-preserving (zero- resp.
  sign-extension), so they are the identity on the carried value.
- Floats carry a `Rat` stand-in for their numeric value; the cast
  `f32 as f64` is exact (every f32 value is exactly representable as f64),
  so `f32tof64` is the identity on the carried value.  No claim involves
  float arithmetic, only which visit method receives the value.
- `fmt::Display` / `fmt::Debug` payloads are external to the crate; a
  display/debug carrier stores the already-rendered `String`, and
  `format_args!("{}", v)` / `format_args!("{:?}", v)` hand exactly that
  rendering to `visit_fmt`.
-/

/-- The values with built-in `Visitable` implementations in value.rs.
One constructor per impl: the scalar impls generated by `impl_values!`
(value.rs lines 130-138), `&str` (140), `[T]` (146), `Vec<T>` (155),
`HashMap` (164), `HashSet` (174), `BTreeMap` (183), `BTreeSet` (193),
`LinkedList` (202), `VecDeque` (211), `BinaryHeap` (220) and `&T` (231).
Container element order is the container's iteration order; for `BTreeMap`
and `BTreeSet` the entry list is the ascending-key iteration sequence; for
the hash containers and `BinaryHeap` it is the (unspecified) native
iteration order. -/
inductive Val : Type where
  | vu8 (n : Nat)
  | vu16 (n : Nat)
  | vu32 (n : Nat)
  | vu64 (n : Nat)
  | vusize (n : Nat)
  | vi8 (i : Int)
  | vi16 (i : Int)
  | vi32 (i : Int)
  | vi64 (i : Int)
  | visize (i : Int)
  | vf32 (q : Rat)
  | vf64 (q : Rat)
  | vbool (b : Bool)
  | vstr (s : String)
  | vslice (xs : List Val)
  | vvec (xs : List Val)
  | vhashMap (es : List (Val × Val))
  | vhashSet (xs : List Val)
  | vbtreeMap (es : List (Val × Val))
  | vbtreeSet (xs : List Val)
  | vlinkedList (xs : List Val)
  | vvecDeque (xs : List Val)
  | vbinaryHeap (xs : List Val)
  | vref (v : Val)

/-- The value-preserving Rust cast `f32 as f64` (exact: every f32 value is
exactly representable as f64), used by the `visit_float(f64, f32 as f64)`
adapter of `impl_values!`. -/
def f32tof64 (q : Rat) : Rat := q

mutual
/-- Size measure on `Val` used to justify termination of the traversal. -/
def Val.size : Val → Nat
  | .vu8 _ => 1
  | .vu16 _ => 1
  | .vu32 _ => 1
  | .vu64 _ => 1
  | .vusize _ => 1
  | .vi8 _ => 1
  | .vi16 _ => 1
  | .vi32 _ => 1
  | .vi64 _ => 1
  | .visize _ => 1
  | .vf32 _ => 1
  | .vf64 _ => 1
  | .vbool _ => 1
  | .vstr _ => 1
  | .vslice xs => 2 + Val.sizeL xs
  | .vvec xs => 3 + Val.sizeL xs
  | .vhashMap es => 2 + Val.sizeKV es
  | .vhashSet xs => 2 + Val.sizeL xs
  | .vbtreeMap es => 2 + Val.sizeKV es
  | .vbtreeSet xs => 2 + Val.sizeL xs
  | .vlinkedList xs => 2 + Val.sizeL xs
  | .vvecDeque xs => 2 + Val.sizeL xs
  | .vbinaryHeap xs => 2 + Val.sizeL xs
  | .vref v => 1 + Val.size v

/-- Sum of sizes of a list of values. -/
def Val.sizeL : List Val → Nat
  | [] => 0
  | v :: vs => Val.size v + Val.sizeL vs

/-- Sum of sizes of a list of key-value entries. -/
def Val.sizeKV : List (Val × Val) → Nat
  | [] => 0
  | (k, v) :: es => Val.size k + Val.size v + Val.sizeKV es
end

/-- The erased value carrier `Value<'a>` (value.rs lines 20-29): a tagged
union over a borrowed describable payload, an owned (boxed) describable
payload, a display-formattable payload and a debug-formattable payload.
The constructors are the constructor functions `Value::borrowed`,
`Value::owned`, `Value::display`, `Value::debug`.  Display/debug carriers
store the rendered `String` (the external `Display`/`Debug` impl's
output). -/
inductive Value : Type where
  | borrowed (v : Val)
  | owned (v : Val)
  | display (s : String)
  | debug (s : String)

/-- Size measure on carriers: an owned or borrowed carrier is as large as
its payload; display/debug carriers are leaves. -/
def Value.size : Value → Nat
  | .borrowed v => Val.size v
  | .owned v => Val.size v
  | .display _ => 1
  | .debug _ => 1

/-- Sum of sizes of a list of carriers. -/
def cSizeL : List Value → Nat
  | [] => 0
  | c :: cs => Value.size c + cSizeL cs

/-- The object-safe streaming visitor trait `Visit` (visitor.rs lines
10-137), as a record of its methods over a visitor state `σ` and error
type `E`.  Every method of the Rust trait is a field; the default bodies
of the six scalar methods are modelled by `Visit.withDefaults` below. -/
structure Visit (σ E : Type) where
  visit_uint : Nat → σ → σ × Option E
  visit_int : Int → σ → σ × Option E
  visit_float : Rat → σ → σ × Option E
  visit_str : String → σ → σ × Option E
  visit_byte : Nat → σ → σ × Option E
  visit_bool : Bool → σ → σ × Option E
  visit_any : Val → σ → σ × Option E
  visit_kv : Value → Value → σ → σ × Option E
  visit_fmt : String → σ → σ × Option E
  named_type : String → σ → σ × Option E
  open_map : σ → σ × Option E
  close_map : σ → σ × Option E
  open_list : σ → σ × Option E
  close_list : σ → σ × Option E
  open_struct : σ → σ × Option E
  close_struct : σ → σ × Option E
  open_tuple : σ → σ × Option E
  close_tuple : σ → σ × Option E

/-- The `?` operator on a visitor call: on `Err` stop with that error and
the state reached so far; on `Ok` continue. -/
def vthen {σ E : Type} (r : σ × Option E) (f : σ → σ × Option E) : σ × Option E :=
  match r with
  | (s, some e) => (s, some e)
  | (s, none) => f s

/-- The loop body of `visit_map` (visitor.rs lines 153-155):
`for (k, v) in i { self.visit_kv(k, v)?; }`. -/
def Visit.kvLoop {σ E : Type} (V : Visit σ E) :
    List (Value × Value) → σ → σ × Option E
  | [], s => (s, none)
  | (k, v) :: rest, s => vthen (V.visit_kv k v s) (Visit.kvLoop V rest)

/-- The map orchestration helper `visit_map` (visitor.rs lines 148-157):
`self.open_map()?; for (k, v) in i { self.visit_kv(k, v)?; } self.close_map()`. -/
def Visit.visit_map {σ E : Type} (V : Visit σ E)
    (i : List (Value × Value)) (s : σ) : σ × Option E :=
  vthen (V.open_map s) fun s1 =>
    vthen (Visit.kvLoop V i s1) fun s2 => V.close_map s2

/-- The loop body of `visit_struct` (visitor.rs lines 193-195):
`for (name, v) in fields { self.visit_kv(Value::borrowed(&name), v)?; }`.
The borrowed field name is a `&str`, wrapped as a borrowed carrier. -/
def Visit.fieldLoop {σ E : Type} (V : Visit σ E) :
    List (String × Value) → σ → σ × Option E
  | [], s => (s, none)
  | (nm, v) :: rest, s =>
      vthen (V.visit_kv (Value.borrowed (.vstr nm)) v s) (Visit.fieldLoop V rest)

/-- The struct orchestration helper `visit_struct` (visitor.rs lines
187-197): `self.named_type(name);` (result discarded, state kept), then
`self.open_struct()?;`, the field loop, then `self.close_struct()`. -/
def Visit.visit_struct {σ E : Type} (V : Visit σ E)
    (name : String) (fields : List (String × Value)) (s : σ) : σ × Option E :=
  vthen (V.open_struct (V.named_type name s).1) fun s1 =>
    vthen (Visit.fieldLoop V fields s1) fun s2 => V.close_struct s2

/-- Every value has positive size (termination support). -/
theorem val_size_pos (v : Val) : 0 < Val.size v := by
  cases v <;> simp [Val.size]

/-- Every carrier has positive size (termination support). -/
theorem value_size_pos (c : Value) : 0 < Value.size c := by
  cases c <;> simp [Value.size, val_size_pos]

/-- Wrapping values as borrowed carriers preserves the size sum
(termination support for the traversal of containers). -/
theorem cSizeL_map_borrowed (xs : List Val) :
    cSizeL (xs.map Value.borrowed) = Val.sizeL xs := by
  induction xs with
  | nil => simp [cSizeL, Val.sizeL]
  | cons x xs ih => simp [cSizeL, Val.sizeL, Value.size, ih]

mutual
/-- The `Visitable::visit` implementations of value.rs, one branch per
impl.  Scalars call the single scalar method chosen by `impl_values!`
(value.rs lines 130-138), with `u16/u32/usize as u64`, `i8/i16/i32/isize
as i64` value-preserving and `f32 as f64` modelled by `f32tof64`;
`&str` calls `visit_str` (line 140); `[T]` calls
`visitor.visit_list(self.iter().map(Value::borrowed))` (line 146);
`Vec<T>` delegates to its slice (line 155); the map types call
`visitor.visit_map` on borrowed key-value carriers (lines 164, 183); the
set types call `visitor.visit_tuple` on borrowed element carriers (lines
174, 193); `LinkedList`, `VecDeque` and `BinaryHeap` call
`visitor.visit_list` on borrowed element carriers (lines 202, 211, 220 -
for `BinaryHeap` the source notes the values will *not* be visited in
order); `&T` forwards to the referent (line 231). -/
def Val.visit {σ E : Type} (v : Val) (V : Visit σ E) (s : σ) : σ × Option E :=
  match v with
  | .vu8 n => V.visit_byte n s
  | .vu16 n => V.visit_uint n s
  | .vu32 n => V.visit_uint n s
  | .vu64 n => V.visit_uint n s
  | .vusize n => V.visit_uint n s
  | .vi8 i => V.visit_int i s
  | .vi16 i => V.visit_int i s
  | .vi32 i => V.visit_int i s
  | .vi64 i => V.visit_int i s
  | .visize i => V.visit_int i s
  | .vf32 q => V.visit_float (f32tof64 q) s
  | .vf64 q => V.visit_float q s
  | .vbool b => V.visit_bool b s
  | .vstr st => V.visit_str st s
  | .vslice xs => Visit.visit_list V (xs.map Value.borrowed) s
  | .vvec xs => Val.visit (.vslice xs) V s
  | .vhashMap es =>
      Visit.visit_map V (es.map fun p => (Value.borrowed p.1, Value.borrowed p.2)) s
  | .vhashSet xs => Visit.visit_tuple V (xs.map Value.borrowed) s
  | .vbtreeMap es =>
      Visit.visit_map V (es.map fun p => (Value.borrowed p.1, Value.borrowed p.2)) s
  | .vbtreeSet xs => Visit.visit_tuple V (xs.map Value.borrowed) s
  | .vlinkedList xs => Visit.visit_list V (xs.map Value.borrowed) s
  | .vvecDeque xs => Visit.visit_list V (xs.map Value.borrowed) s
  | .vbinaryHeap xs => Visit.visit_list V (xs.map Value.borrowed) s
  | .vref v0 => Val.visit v0 V s
termination_by 3 * Val.size v
decreasing_by
  all_goals simp [Val.size, cSizeL_map_borrowed]
  all_goals omega

/-- `Value::visit` (value.rs lines 92-99): dispatch on the active
representation.  Borrowed and owned payloads delegate to the payload's
own `Visitable::visit`; display/debug payloads hand the rendered string
to `visit_fmt`. -/
def Value.visit {σ E : Type} (c : Value) (V : Visit σ E) (s : σ) : σ × Option E :=
  match c with
  | .borrowed v => Val.visit v V s
  | .owned v => Val.visit v V s
  | .display st => V.visit_fmt st s
  | .debug st => V.visit_fmt st s
termination_by 3 * Value.size c + 1
decreasing_by
  all_goals simp [Value.size]

/-- The element loop shared by `visit_list` (visitor.rs lines 172-174),
`visit_tuple` (lines 212-214) and `visit_tuple_struct` (lines 234-236):
`for v in i { v.visit(self)?; }`. -/
def Visit.visitElems {σ E : Type} (V : Visit σ E) (l : List Value) (s : σ) :
    σ × Option E :=
  match l with
  | [] => (s, none)
  | c :: rest => vthen (Value.visit c V s) fun s1 => Visit.visitElems V rest s1
termination_by 3 * cSizeL l + 2
decreasing_by
  · simp [cSizeL]; omega
  · simp [cSizeL]; have := value_size_pos c; omega

/-- The list orchestration helper `visit_list` (visitor.rs lines 167-176):
`self.open_list()?; for v in i { v.visit(self)?; } self.close_list()`. -/
def Visit.visit_list {σ E : Type} (V : Visit σ E) (l : List Value) (s : σ) :
    σ × Option E :=
  vthen (V.open_list s) fun s1 =>
    vthen (Visit.visitElems V l s1) fun s2 => V.close_list s2
termination_by 3 * cSizeL l + 3
decreasing_by
  all_goals simp

/-- The tuple orchestration helper `visit_tuple` (visitor.rs lines
207-216): `self.open_tuple()?; for v in i { v.visit(self)?; }
self.close_tuple()`. -/
def Visit.visit_tuple {σ E : Type} (V : Visit σ E) (l : List Value) (s : σ) :
    σ × Option E :=
  vthen (V.open_tuple s) fun s1 =>
    vthen (Visit.visitElems V l s1) fun s2 => V.close_tuple s2
termination_by 3 * cSizeL l + 3
decreasing_by
  all_goals simp
end

/-- The tuple-struct orchestration helper `visit_tuple_struct` (visitor.rs
lines 228-238): `self.named_type(name);` (result discarded, state kept),
then `self.open_tuple()?;`, the element loop, then `self.close_tuple()`. -/
def Visit.visit_tuple_struct {σ E : Type} (V : Visit σ E)
    (name : String) (fields : List Value) (s : σ) : σ × Option E :=
  vthen (V.open_tuple (V.named_type name s).1) fun s1 =>
    vthen (Visit.visitElems V fields s1) fun s2 => V.close_tuple s2

/-- Builds a `Visit` from the required trait methods, filling the six
scalar methods with their default bodies from visitor.rs lines 16-63:
each default is `self.visit_any(&value)`, handing the (already widened)
scalar to `visit_any` as an erased describable reference.  A visitor that
overrides only `visit_any` is exactly `withDefaults` applied to its
required methods. -/
def Visit.withDefaults {σ E : Type}
    (va : Val → σ → σ × Option E)
    (kv : Value → Value → σ → σ × Option E)
    (vfmt : String → σ → σ × Option E)
    (nt : String → σ → σ × Option E)
    (om cm ol cl os0 cs0 ot ct : σ → σ × Option E) : Visit σ E :=
  { visit_uint := fun n => va (.vu64 n),
    visit_int := fun i => va (.vi64 i),
    visit_float := fun q => va (.vf64 q),
    visit_str := fun st => va (.vstr st),
    visit_byte := fun n => va (.vu8 n),
    visit_bool := fun b => va (.vbool b),
    visit_any := va,
    visit_kv := kv,
    visit_fmt := vfmt,
    named_type := nt,
    open_map := om,
    close_map := cm,
    open_list := ol,
    close_list := cl,
    open_struct := os0,
    close_struct := cs0,
    open_tuple := ot,
    close_tuple := ct }

/-- One visitor call, as recorded by the observing visitors below: one
constructor per `Visit` method, carrying that method's arguments. -/
inductive Call : Type where
  | cuint (n : Nat)
  | cint (i : Int)
  | cfloat (q : Rat)
  | cstr (s : String)
  | cbyte (n : Nat)
  | cbool (b : Bool)
  | cany (v : Val)
  | ckv (k v : Value)
  | cfmt (s : String)
  | cnamedType (s : String)
  | copenMap
  | ccloseMap
  | copenList
  | ccloseList
  | copenStruct
  | ccloseStruct
  | copenTuple
  | ccloseTuple

/-- A recording visitor: its state is the list of calls received so far,
every method appends its call, and the function `f` decides (from the log
before the call and the call itself) whether the call returns an error.
This models an arbitrary consumer-side `Visit` implementation whose
observable behaviour is the call sequence. -/
def record {E : Type} (f : List Call → Call → Option E) : Visit (List Call) E :=
  { visit_uint := fun n s => (s ++ [.cuint n], f s (.cuint n)),
    visit_int := fun i s => (s ++ [.cint i], f s (.cint i)),
    visit_float := fun q s => (s ++ [.cfloat q], f s (.cfloat q)),
    visit_str := fun st s => (s ++ [.cstr st], f s (.cstr st)),
    visit_byte := fun n s => (s ++ [.cbyte n], f s (.cbyte n)),
    visit_bool := fun b s => (s ++ [.cbool b], f s (.cbool b)),
    visit_any := fun v s => (s ++ [.cany v], f s (.cany v)),
    visit_kv := fun k v s => (s ++ [.ckv k v], f s (.ckv k v)),
    visit_fmt := fun st s => (s ++ [.cfmt st], f s (.cfmt st)),
    named_type := fun st s => (s ++ [.cnamedType st], f s (.cnamedType st)),
    open_map := fun s => (s ++ [.copenMap], f s .copenMap),
    close_map := fun s => (s ++ [.ccloseMap], f s .ccloseMap),
    open_list := fun s => (s ++ [.copenList], f s .copenList),
    close_list := fun s => (s ++ [.ccloseList], f s .ccloseList),
    open_struct := fun s => (s ++ [.copenStruct], f s .copenStruct),
    close_struct := fun s => (s ++ [.ccloseStruct], f s .ccloseStruct),
    open_tuple := fun s => (s ++ [.copenTuple], f s .copenTuple),
    close_tuple := fun s => (s ++ [.ccloseTuple], f s .ccloseTuple) }

/-- The always-succeeding recording visitor. -/
abbrev recOk (E : Type) : Visit (List Call) E := record fun _ _ => none

/-- A recording visitor that overrides only the required methods and
keeps the trait's default scalar methods: every scalar arrives at
`visit_any` (as a `cany` record). -/
abbrev recDefault (E : Type) : Visit (List Call) E :=
  Visit.withDefaults
    (fun v s => (s ++ [.cany v], none))
    (fun k v s => (s ++ [.ckv k v], none))
    (fun st s => (s ++ [.cfmt st], none))
    (fun st s => (s ++ [.cnamedType st], none))
    (fun s => (s ++ [.copenMap], none))
    (fun s => (s ++ [.ccloseMap], none))
    (fun s => (s ++ [.copenList], none))
    (fun s => (s ++ [.ccloseList], none))
    (fun s => (s ++ [.copenStruct], none))
    (fun s => (s ++ [.ccloseStruct], none))
    (fun s => (s ++ [.copenTuple], none))
    (fun s => (s ++ [.ccloseTuple], none))

/-- Error trigger: fail (with error `7`) on the second `visit_kv` call.
After `open_map` the log holds one call, so the first `visit_kv` sees a
log of length 1 and the second a log of length 2. -/
def failSecondKv : List Call → Call → Option Nat :=
  fun s c => match c with
    | .ckv _ _ => if s.length == 2 then some 7 else none
    | _ => none

/-- Error trigger: fail (with error `9`) on every `named_type` call. -/
def failNamedType : List Call → Call → Option Nat :=
  fun _ c => match c with
    | .cnamedType _ => some 9
    | _ => none

/-- Error trigger: fail (with error `3`) on every call. -/
def failAll : List Call → Call → Option Nat := fun _ _ => some 3

/-- The same visitor with the error component of `named_type` suppressed
(its state effect kept).  Used to state that the struct and tuple-struct
helpers discard the result of `named_type`. -/
def suppressNT {σ E : Type} (V : Visit σ E) : Visit σ E :=
  { V with named_type := fun nm s => ((V.named_type nm s).1, none) }

mutual
/-- The call sequence an error-free traversal of a value emits (proved to
be exactly what `Val.visit` produces against `recOk` in
`visit_trace_recOk` below).  Mirrors the branches of `Val.visit`. -/
def Val.trace : Val → List Call
  | .vu8 n => [.cbyte n]
  | .vu16 n => [.cuint n]
  | .vu32 n => [.cuint n]
  | .vu64 n => [.cuint n]
  | .vusize n => [.cuint n]
  | .vi8 i => [.cint i]
  | .vi16 i => [.cint i]
  | .vi32 i => [.cint i]
  | .vi64 i => [.cint i]
  | .visize i => [.cint i]
  | .vf32 q => [.cfloat (f32tof64 q)]
  | .vf64 q => [.cfloat q]
  | .vbool b => [.cbool b]
  | .vstr st => [.cstr st]
  | .vslice xs => .copenList :: traceElems (xs.map Value.borrowed) ++ [.ccloseList]
  | .vvec xs => Val.trace (.vslice xs)
  | .vhashMap es =>
      .copenMap :: (es.map fun p => Call.ckv (.borrowed p.1) (.borrowed p.2)) ++ [.ccloseMap]
  | .vhashSet xs => .copenTuple :: traceElems (xs.map Value.borrowed) ++ [.ccloseTuple]
  | .vbtreeMap es =>
      .copenMap :: (es.map fun p => Call.ckv (.borrowed p.1) (.borrowed p.2)) ++ [.ccloseMap]
  | .vbtreeSet xs => .copenTuple :: traceElems (xs.map Value.borrowed) ++ [.ccloseTuple]
  | .vlinkedList xs => .copenList :: traceElems (xs.map Value.borrowed) ++ [.ccloseList]
  | .vvecDeque xs => .copenList :: traceElems (xs.map Value.borrowed) ++ [.ccloseList]
  | .vbinaryHeap xs => .copenList :: traceElems (xs.map Value.borrowed) ++ [.ccloseList]
  | .vref v => Val.trace v
termination_by v => 3 * Val.size v
decreasing_by
  all_goals simp [Val.size, cSizeL_map_borrowed]
  all_goals omega

/-- The call sequence an error-free visit of a carrier emits. -/
def Value.trace : Value → List Call
  | .borrowed v => Val.trace v
  | .owned v => Val.trace v
  | .display st => [.cfmt st]
  | .debug st => [.cfmt st]
termination_by c => 3 * Value.size c + 1
decreasing_by
  all_goals simp [Value.size]

/-- The concatenation of the call sequences of a list of carriers. -/
def traceElems : List Value → List Call
  | [] => []
  | c :: rest => Value.trace c ++ traceElems rest
termination_by l => 3 * cSizeL l + 2
decreasing_by
  · simp [cSizeL]; omega
  · simp [cSizeL]; have := value_size_pos c; omega
end

mutual
/-- A value is built from deterministic (non-hash-based) containers and
scalars: it contains no `HashMap` or `HashSet` at any depth. -/
def Val.deterministic : Val → Bool
  | .vu8 _ => true
  | .vu16 _ => true
  | .vu32 _ => true
  | .vu64 _ => true
  | .vusize _ => true
  | .vi8 _ => true
  | .vi16 _ => true
  | .vi32 _ => true
  | .vi64 _ => true
  | .visize _ => true
  | .vf32 _ => true
  | .vf64 _ => true
  | .vbool _ => true
  | .vstr _ => true
  | .vslice xs => Val.deterministicL xs
  | .vvec xs => Val.deterministicL xs
  | .vhashMap _ => false
  | .vhashSet _ => false
  | .vbtreeMap es => Val.deterministicKV es
  | .vbtreeSet xs => Val.deterministicL xs
  | .vlinkedList xs => Val.deterministicL xs
  | .vvecDeque xs => Val.deterministicL xs
  | .vbinaryHeap xs => Val.deterministicL xs
  | .vref v => Val.deterministic v

/-- All values in the list are deterministic. -/
def Val.deterministicL : List Val → Bool
  | [] => true
  | v :: vs => Val.deterministic v && Val.deterministicL vs

/-- All keys and values in the entry list are deterministic. -/
def Val.deterministicKV : List (Val × Val) → Bool
  | [] => true
  | (k, v) :: es => Val.deterministic k && Val.deterministic v && Val.deterministicKV es
end

/-- `BTreeMap` insertion on (machine-integer) keys, modelled on the sorted
entry list that `BTreeMap::iter` yields in ascending key order: inserting
an existing key replaces its value, a new key is placed at its sorted
position. -/
def btreeInsert (k : Nat) (v : Val) : List (Nat × Val) → List (Nat × Val)
  | [] => [(k, v)]
  | (k0, v0) :: rest =>
      if k < k0 then (k, v) :: (k0, v0) :: rest
      else if k = k0 then (k, v) :: rest
      else (k0, v0) :: btreeInsert k v rest

/-- The entry list of the `BTreeMap<u64, V>` built by inserting the given
key-value pairs left to right into an empty map. -/
def btreeOfInserts (l : List (Nat × Val)) : List (Nat × Val) :=
  l.foldl (fun m p => btreeInsert p.1 p.2 m) []

/-- The `Val` entry list of a `BTreeMap<u64, V>`: keys become `u64`
values. -/
def btreeEntries (es : List (Nat × Val)) : List (Val × Val) :=
  es.map fun p => (Val.vu64 p.1, p.2)


/-! Unfolding lemmas for the recording visitors: one per `Visit` method,
each holding by definitional unfolding. -/

@[simp] theorem record_visit_uint {E : Type} (f : List Call → Call → Option E) (n : Nat) (s : List Call) :
    (record f).visit_uint n s = (s ++ [.cuint n], f s (.cuint n)) := rfl

@[simp] theorem record_visit_int {E : Type} (f : List Call → Call → Option E) (i : Int) (s : List Call) :
    (record f).visit_int i s = (s ++ [.cint i], f s (.cint i)) := rfl

@[simp] theorem record_visit_float {E : Type} (f : List Call → Call → Option E) (q : Rat) (s : List Call) :
    (record f).visit_float q s = (s ++ [.cfloat q], f s (.cfloat q)) := rfl

@[simp] theorem record_visit_str {E : Type} (f : List Call → Call → Option E) (st : String) (s : List Call) :
    (record f).visit_str st s = (s ++ [.cstr st], f s (.cstr st)) := rfl

@[simp] theorem record_visit_byte {E : Type} (f : List Call → Call → Option E) (n : Nat) (s : List Call) :
    (record f).visit_byte n s = (s ++ [.cbyte n], f s (.cbyte n)) := rfl

@[simp] theorem record_visit_bool {E : Type} (f : List Call → Call → Option E) (b : Bool) (s : List Call) :
    (record f).visit_bool b s = (s ++ [.cbool b], f s (.cbool b)) := rfl

@[simp] theorem record_visit_any {E : Type} (f : List Call → Call → Option E) (v : Val) (s : List Call) :
    (record f).visit_any v s = (s ++ [.cany v], f s (.cany v)) := rfl

@[simp] theorem record_visit_kv {E : Type} (f : List Call → Call → Option E) (k v : Value) (s : List Call) :
    (record f).visit_kv k v s = (s ++ [.ckv k v], f s (.ckv k v)) := rfl

@[simp] theorem record_visit_fmt {E : Type} (f : List Call → Call → Option E) (st : String) (s : List Call) :
    (record f).visit_fmt st s = (s ++ [.cfmt st], f s (.cfmt st)) := rfl

@[simp] theorem record_named_type {E : Type} (f : List Call → Call → Option E) (st : String) (s : List Call) :
    (record f).named_type st s = (s ++ [.cnamedType st], f s (.cnamedType st)) := rfl

@[simp] theorem record_open_map {E : Type} (f : List Call → Call → Option E) (s : List Call) :
    (record f).open_map s = (s ++ [.copenMap], f s .copenMap) := rfl

@[simp] theorem record_close_map {E : Type} (f : List Call → Call → Option E) (s : List Call) :
    (record f).close_map s = (s ++ [.ccloseMap], f s .ccloseMap) := rfl

@[simp] theorem record_open_list {E : Type} (f : List Call → Call → Option E) (s : List Call) :
    (record f).open_list s = (s ++ [.copenList], f s .copenList) := rfl

@[simp] theorem record_close_list {E : Type} (f : List Call → Call → Option E) (s : List Call) :
    (record f).close_list s = (s ++ [.ccloseList], f s .ccloseList) := rfl

@[simp] theorem record_open_struct {E : Type} (f : List Call → Call → Option E) (s : List Call) :
    (record f).open_struct s = (s ++ [.copenStruct], f s .copenStruct) := rfl

@[simp] theorem record_close_struct {E : Type} (f : List Call → Call → Option E) (s : List Call) :
    (record f).close_struct s = (s ++ [.ccloseStruct], f s .ccloseStruct) := rfl

@[simp] theorem record_open_tuple {E : Type} (f : List Call → Call → Option E) (s : List Call) :
    (record f).open_tuple s = (s ++ [.copenTuple], f s .copenTuple) := rfl

@[simp] theorem record_close_tuple {E : Type} (f : List Call → Call → Option E) (s : List Call) :
    (record f).close_tuple s = (s ++ [.ccloseTuple], f s .ccloseTuple) := rfl

/-- Against the error-free recording visitor, the key-value loop of
`visit_map` appends one `visit_kv` record per entry. -/
theorem kvLoop_recOk {E : Type} (l : List (Value × Value)) (s : List Call) :
    Visit.kvLoop (recOk E) l s =
      (s ++ l.map fun p => Call.ckv p.1 p.2, none) := by
  induction l generalizing s with
  | nil => simp [Visit.kvLoop]
  | cons p rest ih => simp [Visit.kvLoop, vthen, ih]

/-- Against the error-free recording visitor, `visit_map` emits
`open_map`, one `visit_kv` per entry in order, and `close_map`. -/
theorem visit_map_recOk {E : Type} (l : List (Value × Value)) (s : List Call) :
    Visit.visit_map (recOk E) l s =
      (s ++ Call.copenMap :: ((l.map fun p => Call.ckv p.1 p.2) ++ [Call.ccloseMap]),
        none) := by
  simp [Visit.visit_map, vthen, kvLoop_recOk]

/-- Against the error-free recording visitor, every traversal succeeds
and appends exactly `Val.trace` of the visited value to the log. -/
theorem visit_recOk_val {E : Type} (v : Val) (s : List Call) :
    Val.visit v (recOk E) s = (s ++ Val.trace v, none) := by
  refine @Val.visit.induct (List Call) E
    (fun v0 _ _ => ∀ s1, Val.visit v0 (recOk E) s1 = (s1 ++ Val.trace v0, none))
    (fun _ l _ => ∀ s1, Visit.visit_tuple (recOk E) l s1 =
      (s1 ++ Call.copenTuple :: (traceElems l ++ [Call.ccloseTuple]), none))
    (fun _ l _ => ∀ s1, Visit.visitElems (recOk E) l s1 = (s1 ++ traceElems l, none))
    (fun c _ _ => ∀ s1, Value.visit c (recOk E) s1 = (s1 ++ Value.trace c, none))
    (fun _ l _ => ∀ s1, Visit.visit_list (recOk E) l s1 =
      (s1 ++ Call.copenList :: (traceElems l ++ [Call.ccloseList]), none))
    ?_ ?_ ?_ ?_ ?_ ?_ ?_ ?_ ?_ ?_ ?_ ?_ ?_ ?_ ?_ ?_ ?_ ?_ ?_ ?_ ?_ ?_ ?_ ?_ ?_ ?_
    ?_ ?_ ?_ ?_ ?_ ?_ v (recOk E) s s
  all_goals intros
  all_goals
    simp_all [Val.visit, Val.trace, Value.visit, Value.trace, Visit.visitElems,
      traceElems, Visit.visit_list, Visit.visit_tuple, visit_map_recOk,
      vthen, List.map_map, Function.comp]

/-- Against the error-free recording visitor, consuming a carrier
succeeds and appends exactly `Value.trace` of the carrier. -/
theorem visit_recOk_value {E : Type} (c : Value) (s : List Call) :
    Value.visit c (recOk E) s = (s ++ Value.trace c, none) := by
  cases c <;> simp [Value.visit, Value.trace, visit_recOk_val]

/-- Against the error-free recording visitor, the element loop appends
the concatenated traces of the elements. -/
theorem visitElems_recOk {E : Type} (l : List Value) (s : List Call) :
    Visit.visitElems (recOk E) l s = (s ++ traceElems l, none) := by
  induction l generalizing s with
  | nil => simp [Visit.visitElems, traceElems]
  | cons c rest ih => simp [Visit.visitElems, traceElems, vthen, visit_recOk_value, ih]

/-- Against the error-free recording visitor, `visit_list` brackets the
element traces with `open_list`/`close_list`. -/
theorem visit_list_recOk {E : Type} (l : List Value) (s : List Call) :
    Visit.visit_list (recOk E) l s =
      (s ++ Call.copenList :: (traceElems l ++ [Call.ccloseList]), none) := by
  simp [Visit.visit_list, vthen, visitElems_recOk]

/-- Against the error-free recording visitor, `visit_tuple` brackets the
element traces with `open_tuple`/`close_tuple`. -/
theorem visit_tuple_recOk {E : Type} (l : List Value) (s : List Call) :
    Visit.visit_tuple (recOk E) l s =
      (s ++ Call.copenTuple :: (traceElems l ++ [Call.ccloseTuple]), none) := by
  simp [Visit.visit_tuple, vthen, visitElems_recOk]

/-- Against the error-free recording visitor, the struct field loop
appends one `visit_kv` record per field, the key being the borrowed field
name. -/
theorem fieldLoop_recOk {E : Type} (l : List (String × Value)) (s : List Call) :
    Visit.fieldLoop (recOk E) l s =
      (s ++ l.map fun p => Call.ckv (Value.borrowed (.vstr p.1)) p.2, none) := by
  induction l generalizing s with
  | nil => simp [Visit.fieldLoop]
  | cons p rest ih => simp [Visit.fieldLoop, vthen, ih]

/-- Every entry of `btreeInsert k v l` either has key `k` or comes from
`l`. -/
theorem btreeInsert_mem {k : Nat} {v : Val} {l : List (Nat × Val)} :
    ∀ p ∈ btreeInsert k v l, p.1 = k ∨ p ∈ l := by
  induction l with
  | nil => simp [btreeInsert]
  | cons q rest ih =>
      intro p hp
      rw [btreeInsert] at hp
      by_cases h1 : k < q.1
      · simp [h1] at hp
        rcases hp with h | h | h
        · left; simp [h]
        · right; simp [h]
        · right; simp [h]
      · by_cases h2 : k = q.1
        · simp [h1, h2] at hp
          rcases hp with h | h
          · left; rw [h]; exact h2.symm
          · right; simp [h]
        · simp [h1, h2] at hp
          rcases hp with h | h
          · right; simp [h]
          · rcases ih p h with h3 | h3
            · left; exact h3
            · right; simp [h3]

/-- `btreeInsert` preserves strict ascending key order. -/
theorem btreeInsert_pairwise {k : Nat} {v : Val} {l : List (Nat × Val)}
    (h : l.Pairwise fun a b => a.1 < b.1) :
    (btreeInsert k v l).Pairwise fun a b => a.1 < b.1 := by
  induction l with
  | nil => simp [btreeInsert]
  | cons q rest ih =>
      rw [List.pairwise_cons] at h
      obtain ⟨hq, hrest⟩ := h
      rw [btreeInsert]
      by_cases h1 : k < q.1
      · simp only [if_pos h1]
        refine List.Pairwise.cons ?_ (List.Pairwise.cons hq hrest)
        intro p hp
        rcases hp with _ | hp
        · exact h1
        · have := hq p (by assumption)
          omega
      · by_cases h2 : k = q.1
        · simp only [if_neg h1, if_pos h2]
          refine List.Pairwise.cons ?_ hrest
          intro p hp
          have := hq p hp
          omega
        · simp only [if_neg h1, if_neg h2]
          refine List.Pairwise.cons ?_ (ih hrest)
          intro p hp
          rcases btreeInsert_mem p hp with h3 | h3
          · omega
          · exact hq p h3

/-- The entry list built by any insertion sequence is in strict ascending
key order: the `BTreeMap` iteration-order guarantee. -/
theorem btreeOfInserts_pairwise (l : List (Nat × Val)) :
    (btreeOfInserts l).Pairwise fun a b => a.1 < b.1 := by
  have main : ∀ (l : List (Nat × Val)) (acc : List (Nat × Val)),
      (acc.Pairwise fun a b => a.1 < b.1) →
      ((l.foldl (fun m p => btreeInsert p.1 p.2 m) acc).Pairwise fun a b => a.1 < b.1) := by
    intro l
    induction l with
    | nil => intro acc h; simpa using h
    | cons p rest ih =>
        intro acc h
        exact ih (btreeInsert p.1 p.2 acc) (btreeInsert_pairwise h)
  exact main l [] (by simp)

/-- C4: every primitive scalar adapter invokes exactly one scalar visit
method with the value widened to the canonical form (u8 via `visit_byte`;
u16/u32/u64/usize via `visit_uint` as u64; signed via `visit_int` as i64;
floats via `visit_float` as f64; bool via `visit_bool`; string slice via
`visit_str`); against a recording visitor the emitted trace is that
single call and contains no bracket call; and each scalar method's
default implementation delegates to `visit_any`, so a visitor overriding
only `visit_any` (here `recDefault`) still receives every scalar. -/
theorem C4_scalar_adapters {σ E : Type} (V : Visit σ E) (s : σ)
    (n : Nat) (i : Int) (q : Rat) (b : Bool) (st : String) (sc : List Call) :
    (Val.visit (.vu8 n) V s = V.visit_byte n s ∧
     Val.visit (.vu16 n) V s = V.visit_uint n s ∧
     Val.visit (.vu32 n) V s = V.visit_uint n s ∧
     Val.visit (.vu64 n) V s = V.visit_uint n s ∧
     Val.visit (.vusize n) V s = V.visit_uint n s ∧
     Val.visit (.vi8 i) V s = V.visit_int i s ∧
     Val.visit (.vi16 i) V s = V.visit_int i s ∧
     Val.visit (.vi32 i) V s = V.visit_int i s ∧
     Val.visit (.vi64 i) V s = V.visit_int i s ∧
     Val.visit (.visize i) V s = V.visit_int i s ∧
     Val.visit (.vf32 q) V s = V.visit_float (f32tof64 q) s ∧
     Val.visit (.vf64 q) V s = V.visit_float q s ∧
     Val.visit (.vbool b) V s = V.visit_bool b s ∧
     Val.visit (.vstr st) V s = V.visit_str st s) ∧
    (Val.visit (.vu8 n) (recOk E) sc = (sc ++ [.cbyte n], none) ∧
     Val.visit (.vu16 n) (recOk E) sc = (sc ++ [.cuint n], none) ∧
     Val.visit (.vusize n) (recOk E) sc = (sc ++ [.cuint n], none) ∧
     Val.visit (.vi8 i) (recOk E) sc = (sc ++ [.cint i], none) ∧
     Val.visit (.vf32 q) (recOk E) sc = (sc ++ [.cfloat (f32tof64 q)], none) ∧
     Val.visit (.vbool b) (recOk E) sc = (sc ++ [.cbool b], none) ∧
     Val.visit (.vstr st) (recOk E) sc = (sc ++ [.cstr st], none)) ∧
    ((recDefault E).visit_uint n sc = (recDefault E).visit_any (.vu64 n) sc ∧
     (recDefault E).visit_int i sc = (recDefault E).visit_any (.vi64 i) sc ∧
     (recDefault E).visit_float q sc = (recDefault E).visit_any (.vf64 q) sc ∧
     (recDefault E).visit_str st sc = (recDefault E).visit_any (.vstr st) sc ∧
     (recDefault E).visit_byte n sc = (recDefault E).visit_any (.vu8 n) sc ∧
     (recDefault E).visit_bool b sc = (recDefault E).visit_any (.vbool b) sc) ∧
    (Val.visit (.vu8 n) (recDefault E) sc = (sc ++ [.cany (.vu8 n)], none) ∧
     Val.visit (.vu16 n) (recDefault E) sc = (sc ++ [.cany (.vu64 n)], none) ∧
     Val.visit (.vu64 n) (recDefault E) sc = (sc ++ [.cany (.vu64 n)], none) ∧
     Val.visit (.vi8 i) (recDefault E) sc = (sc ++ [.cany (.vi64 i)], none) ∧
     Val.visit (.vf32 q) (recDefault E) sc = (sc ++ [.cany (.vf64 (f32tof64 q))], none) ∧
     Val.visit (.vbool b) (recDefault E) sc = (sc ++ [.cany (.vbool b)], none) ∧
     Val.visit (.vstr st) (recDefault E) sc = (sc ++ [.cany (.vstr st)], none)) := by
  repeat' apply And.intro
  all_goals simp [Val.visit, Visit.withDefaults]

/-- C7: consuming a carrier dispatches on the active representation: a
borrowed or owned describable payload delegates to that payload's own
visit, a display or debug payload produces exactly one `visit_fmt` call
with the rendering, and in every case the underlying call's result is
returned unchanged (no error introduced by the carrier itself). -/
theorem C7_carrier_dispatch {σ E : Type} (V : Visit σ E) (v : Val) (st : String)
    (s : σ) (sc : List Call) :
    Value.visit (.borrowed v) V s = Val.visit v V s ∧
    Value.visit (.owned v) V s = Val.visit v V s ∧
    Value.visit (.display st) V s = V.visit_fmt st s ∧
    Value.visit (.debug st) V s = V.visit_fmt st s ∧
    Value.visit (.display st) (recOk E) sc = (sc ++ [.cfmt st], none) ∧
    Value.visit (.debug st) (recOk E) sc = (sc ++ [.cfmt st], none) := by
  repeat' apply And.intro
  all_goals simp [Value.visit]

/-- C5: every sequence adapter (slice, Vec, LinkedList, VecDeque) hands
its elements, wrapped as borrowed carriers in iteration order, to the
`visit_list` helper; for `[a, b, c]` the recorded traversal is exactly
open_list, visit(a), visit(b), visit(c), close_list. -/
theorem C5_sequences {σ E : Type} (V : Visit σ E) (xs : List Val) (a b c : Val)
    (s : σ) (sc : List Call) :
    (Val.visit (.vslice xs) V s = Visit.visit_list V (xs.map Value.borrowed) s ∧
     Val.visit (.vvec xs) V s = Visit.visit_list V (xs.map Value.borrowed) s ∧
     Val.visit (.vlinkedList xs) V s = Visit.visit_list V (xs.map Value.borrowed) s ∧
     Val.visit (.vvecDeque xs) V s = Visit.visit_list V (xs.map Value.borrowed) s) ∧
    (Val.visit (.vslice [a, b, c]) (recOk E) sc =
       (sc ++ .copenList :: (Val.trace a ++ Val.trace b ++ Val.trace c ++ [.ccloseList]), none) ∧
     Val.visit (.vvec [a, b, c]) (recOk E) sc =
       (sc ++ .copenList :: (Val.trace a ++ Val.trace b ++ Val.trace c ++ [.ccloseList]), none) ∧
     Val.visit (.vlinkedList [a, b, c]) (recOk E) sc =
       (sc ++ .copenList :: (Val.trace a ++ Val.trace b ++ Val.trace c ++ [.ccloseList]), none) ∧
     Val.visit (.vvecDeque [a, b, c]) (recOk E) sc =
       (sc ++ .copenList :: (Val.trace a ++ Val.trace b ++ Val.trace c ++ [.ccloseList]), none)) := by
  repeat' apply And.intro
  all_goals simp [Val.visit, visit_recOk_val, Val.trace, traceElems, Value.trace]

/-- C1 counterexample: visiting the `BinaryHeap` containing 5, 1, 3
produces a LIST-bracketed traversal, not a tuple-bracketed one — the
`BinaryHeap` adapter (value.rs line 227) calls `visitor.visit_list`, so
the recorded trace opens with `open_list` and contains no `open_tuple`
or `close_tuple` call. -/
theorem C1_counterexample :
    (Val.visit (.vbinaryHeap [.vu64 5, .vu64 1, .vu64 3]) (recOk Unit) []).1 =
      [.copenList, .cuint 5, .cuint 1, .cuint 3, .ccloseList] ∧
    Call.copenTuple ∉
      (Val.visit (.vbinaryHeap [.vu64 5, .vu64 1, .vu64 3]) (recOk Unit) []).1 ∧
    Call.ccloseTuple ∉
      (Val.visit (.vbinaryHeap [.vu64 5, .vu64 1, .vu64 3]) (recOk Unit) []).1 := by
  repeat' apply And.intro
  all_goals simp [visit_recOk_val, Val.trace, traceElems, Value.trace]

/-- C1 (amended): visiting a priority queue (`BinaryHeap`) produces a
LIST-bracketed traversal: `open_list`, then each element visited as a
borrowed child carrier (in no guaranteed order), then `close_list`; for a
heap containing 5, 1, 3 the children visited are exactly the multiset
containing 5, 1 and 3. -/
theorem C1_heap_list_bracketed {σ E : Type} (V : Visit σ E) (xs : List Val)
    (s : σ) (sc : List Call) :
    (Val.visit (.vbinaryHeap xs) V s = Visit.visit_list V (xs.map Value.borrowed) s) ∧
    (Val.visit (.vbinaryHeap xs) (recOk E) sc =
      (sc ++ .copenList :: (traceElems (xs.map Value.borrowed) ++ [.ccloseList]), none)) ∧
    (∃ kids : List Call,
      (Val.visit (.vbinaryHeap [.vu64 5, .vu64 1, .vu64 3]) (recOk E) []).1 =
        .copenList :: (kids ++ [.ccloseList]) ∧
      kids.Perm [.cuint 5, .cuint 1, .cuint 3]) := by
  refine ⟨?_, ?_, [.cuint 5, .cuint 1, .cuint 3], ?_, List.Perm.refl _⟩
  all_goals simp [Val.visit, visit_recOk_val, Val.trace, traceElems, Value.trace]

/-- C2: the map orchestration helper is fail-fast: an error from
`open_map` is returned unchanged with nothing else called; an error from
any `visit_kv` is returned unchanged immediately without visiting the
remaining entries or calling `close_map`; concretely, with a visitor
failing (error 7) on the second of three `BTreeMap` entries, the
top-level carrier visit returns exactly error 7 and the recorded trace is
open_map and the first two key-value calls — no third entry, no
`close_map`. -/
theorem C2_visit_map_fail_fast {σ E : Type} (V : Visit σ E)
    (l : List (Value × Value)) (k v : Value) (rest : List (Value × Value))
    (s s1 : σ) (e : E) :
    (V.open_map s = (s1, some e) → Visit.visit_map V l s = (s1, some e)) ∧
    (V.visit_kv k v s = (s1, some e) →
      Visit.kvLoop V ((k, v) :: rest) s = (s1, some e)) ∧
    (∀ s0, V.open_map s = (s0, none) → Visit.kvLoop V l s0 = (s1, some e) →
      Visit.visit_map V l s = (s1, some e)) ∧
    (Value.visit
        (.borrowed (.vbtreeMap
          [(.vu64 1, .vu64 10), (.vu64 2, .vu64 20), (.vu64 3, .vu64 30)]))
        (record failSecondKv) [] =
      ([.copenMap,
        .ckv (.borrowed (.vu64 1)) (.borrowed (.vu64 10)),
        .ckv (.borrowed (.vu64 2)) (.borrowed (.vu64 20))], some 7)) := by
  refine ⟨?_, ?_, ?_, ?_⟩
  · intro h; simp [Visit.visit_map, vthen, h]
  · intro h; simp [Visit.kvLoop, vthen, h]
  · intro s0 h1 h2; simp [Visit.visit_map, vthen, h1, h2]
  · simp [Value.visit, Val.visit, Visit.visit_map, Visit.kvLoop, vthen, failSecondKv]

/-- C2 witness: the fail-fast facts applied at concrete visitors: with a
visitor failing (error 3) on every call, `open_map` fails, so `visit_map`
on a one-entry list returns exactly that error having emitted only the
`open_map` record, and a failing `visit_kv` stops the loop at once; with
a visitor failing (error 7) on the second `visit_kv`, `visit_map` on two
entries returns error 7 without calling `close_map`. -/
theorem C2_visit_map_fail_fast_witness :
    (Visit.visit_map (record failAll)
        [(Value.borrowed (.vu64 1), Value.borrowed (.vu64 10))] [] =
      ([.copenMap], some 3)) ∧
    (Visit.kvLoop (record failAll)
        [(Value.borrowed (.vu64 1), Value.borrowed (.vu64 10)),
         (Value.borrowed (.vu64 2), Value.borrowed (.vu64 20))] [] =
      ([.ckv (.borrowed (.vu64 1)) (.borrowed (.vu64 10))], some 3)) ∧
    (Visit.visit_map (record failSecondKv)
        [(Value.borrowed (.vu64 1), Value.borrowed (.vu64 10)),
         (Value.borrowed (.vu64 2), Value.borrowed (.vu64 20))] [] =
      ([.copenMap,
        .ckv (.borrowed (.vu64 1)) (.borrowed (.vu64 10)),
        .ckv (.borrowed (.vu64 2)) (.borrowed (.vu64 20))], some 7)) := by
  refine ⟨?_, ?_, ?_⟩
  · exact (C2_visit_map_fail_fast (record failAll)
      [(Value.borrowed (.vu64 1), Value.borrowed (.vu64 10))]
      (Value.borrowed (.vu64 1)) (Value.borrowed (.vu64 10)) [] [] [.copenMap] 3).1
      (by simp [failAll])
  · exact (C2_visit_map_fail_fast (record failAll) []
      (Value.borrowed (.vu64 1)) (Value.borrowed (.vu64 10))
      [(Value.borrowed (.vu64 2), Value.borrowed (.vu64 20))] []
      [.ckv (.borrowed (.vu64 1)) (.borrowed (.vu64 10))] 3).2.1
      (by simp [failAll])
  · exact (C2_visit_map_fail_fast (record failSecondKv)
      [(Value.borrowed (.vu64 1), Value.borrowed (.vu64 10)),
       (Value.borrowed (.vu64 2), Value.borrowed (.vu64 20))]
      (Value.borrowed (.vu64 1)) (Value.borrowed (.vu64 10)) [] []
      [.copenMap,
       .ckv (.borrowed (.vu64 1)) (.borrowed (.vu64 10)),
       .ckv (.borrowed (.vu64 2)) (.borrowed (.vu64 20))] 7).2.2.1
      [.copenMap] (by simp [failSecondKv])
      (by simp [Visit.kvLoop, vthen, failSecondKv])

/-! Projection lemmas for `suppressNT` and reduction lemmas for `vthen`:
suppressing `named_type`'s error leaves every other method unchanged. -/

@[simp] theorem vthen_none {σ E : Type} (s : σ) (f : σ → σ × Option E) :
    vthen (s, none) f = f s := rfl

@[simp] theorem vthen_some {σ E : Type} (s : σ) (e : E) (f : σ → σ × Option E) :
    vthen (s, some e) f = (s, some e) := rfl

@[simp] theorem suppressNT_visit_uint {σ E : Type} (V : Visit σ E) :
    (suppressNT V).visit_uint = V.visit_uint := rfl

@[simp] theorem suppressNT_visit_int {σ E : Type} (V : Visit σ E) :
    (suppressNT V).visit_int = V.visit_int := rfl

@[simp] theorem suppressNT_visit_float {σ E : Type} (V : Visit σ E) :
    (suppressNT V).visit_float = V.visit_float := rfl

@[simp] theorem suppressNT_visit_str {σ E : Type} (V : Visit σ E) :
    (suppressNT V).visit_str = V.visit_str := rfl

@[simp] theorem suppressNT_visit_byte {σ E : Type} (V : Visit σ E) :
    (suppressNT V).visit_byte = V.visit_byte := rfl

@[simp] theorem suppressNT_visit_bool {σ E : Type} (V : Visit σ E) :
    (suppressNT V).visit_bool = V.visit_bool := rfl

@[simp] theorem suppressNT_visit_any {σ E : Type} (V : Visit σ E) :
    (suppressNT V).visit_any = V.visit_any := rfl

@[simp] theorem suppressNT_visit_kv {σ E : Type} (V : Visit σ E) :
    (suppressNT V).visit_kv = V.visit_kv := rfl

@[simp] theorem suppressNT_visit_fmt {σ E : Type} (V : Visit σ E) :
    (suppressNT V).visit_fmt = V.visit_fmt := rfl

@[simp] theorem suppressNT_named_type {σ E : Type} (V : Visit σ E) (nm : String) (s : σ) :
    (suppressNT V).named_type nm s = ((V.named_type nm s).1, none) := rfl

@[simp] theorem suppressNT_open_map {σ E : Type} (V : Visit σ E) :
    (suppressNT V).open_map = V.open_map := rfl

@[simp] theorem suppressNT_close_map {σ E : Type} (V : Visit σ E) :
    (suppressNT V).close_map = V.close_map := rfl

@[simp] theorem suppressNT_open_list {σ E : Type} (V : Visit σ E) :
    (suppressNT V).open_list = V.open_list := rfl

@[simp] theorem suppressNT_close_list {σ E : Type} (V : Visit σ E) :
    (suppressNT V).close_list = V.close_list := rfl

@[simp] theorem suppressNT_open_struct {σ E : Type} (V : Visit σ E) :
    (suppressNT V).open_struct = V.open_struct := rfl

@[simp] theorem suppressNT_close_struct {σ E : Type} (V : Visit σ E) :
    (suppressNT V).close_struct = V.close_struct := rfl

@[simp] theorem suppressNT_open_tuple {σ E : Type} (V : Visit σ E) :
    (suppressNT V).open_tuple = V.open_tuple := rfl

@[simp] theorem suppressNT_close_tuple {σ E : Type} (V : Visit σ E) :
    (suppressNT V).close_tuple = V.close_tuple := rfl

/-- The `visit_map` key-value loop never calls `named_type`, so it is
unchanged under `suppressNT`. -/
theorem kvLoop_suppressNT {σ E : Type} (V : Visit σ E)
    (l : List (Value × Value)) (s : σ) :
    Visit.kvLoop (suppressNT V) l s = Visit.kvLoop V l s := by
  induction l generalizing s with
  | nil => simp [Visit.kvLoop]
  | cons p rest ih =>
      obtain ⟨k, v⟩ := p
      rw [Visit.kvLoop, Visit.kvLoop, suppressNT_visit_kv, funext ih]

/-- The struct field loop never calls `named_type`, so it is unchanged
under `suppressNT`. -/
theorem fieldLoop_suppressNT {σ E : Type} (V : Visit σ E)
    (l : List (String × Value)) (s : σ) :
    Visit.fieldLoop (suppressNT V) l s = Visit.fieldLoop V l s := by
  induction l generalizing s with
  | nil => simp [Visit.fieldLoop]
  | cons p rest ih =>
      obtain ⟨nm, v⟩ := p
      rw [Visit.fieldLoop, Visit.fieldLoop, suppressNT_visit_kv, funext ih]

/-- The `visit_map` helper never calls `named_type`, so it is unchanged
under `suppressNT`. -/
theorem visit_map_suppressNT {σ E : Type} (V : Visit σ E)
    (l : List (Value × Value)) (s : σ) :
    Visit.visit_map (suppressNT V) l s = Visit.visit_map V l s := by
  rw [Visit.visit_map, Visit.visit_map, suppressNT_open_map]
  simp only [kvLoop_suppressNT, suppressNT_close_map]

/-- A value's own traversal never calls `named_type` (no built-in
`Visitable` impl is struct-like), so it is unchanged under
`suppressNT`. -/
theorem visit_suppressNT_val {σ E : Type} (V : Visit σ E) (v : Val) (s : σ) :
    Val.visit v (suppressNT V) s = Val.visit v V s := by
  refine @Val.visit.induct σ E
    (fun v0 V0 s0 => Val.visit v0 (suppressNT V0) s0 = Val.visit v0 V0 s0)
    (fun V0 l s0 => Visit.visit_tuple (suppressNT V0) l s0 = Visit.visit_tuple V0 l s0)
    (fun V0 l s0 => Visit.visitElems (suppressNT V0) l s0 = Visit.visitElems V0 l s0)
    (fun c V0 s0 => Value.visit c (suppressNT V0) s0 = Value.visit c V0 s0)
    (fun V0 l s0 => Visit.visit_list (suppressNT V0) l s0 = Visit.visit_list V0 l s0)
    ?_ ?_ ?_ ?_ ?_ ?_ ?_ ?_ ?_ ?_ ?_ ?_ ?_ ?_ ?_ ?_ ?_ ?_ ?_ ?_ ?_ ?_ ?_ ?_ ?_ ?_
    ?_ ?_ ?_ ?_ ?_ ?_ v V s
  all_goals intros
  all_goals
    simp_all [Val.visit, Value.visit, Visit.visitElems, Visit.visit_list,
      Visit.visit_tuple, visit_map_suppressNT]

/-- A carrier's visit never calls `named_type`, so it is unchanged under
`suppressNT`. -/
theorem visit_suppressNT_value {σ E : Type} (V : Visit σ E) (c : Value) (s : σ) :
    Value.visit c (suppressNT V) s = Value.visit c V s := by
  cases c <;> simp [Value.visit, visit_suppressNT_val]

/-- The element loop never calls `named_type`, so it is unchanged under
`suppressNT`. -/
theorem visitElems_suppressNT {σ E : Type} (V : Visit σ E) (l : List Value) (s : σ) :
    Visit.visitElems (suppressNT V) l s = Visit.visitElems V l s := by
  induction l generalizing s with
  | nil => simp [Visit.visitElems]
  | cons c rest ih =>
      rw [Visit.visitElems, Visit.visitElems]
      simp only [visit_suppressNT_value, ih]

/-- C3: the struct helper calls `named_type(name)` and discards its
result (an erroring `named_type` does not abort the traversal: the helper
behaves exactly as with the error suppressed), then `open_struct`, then
one `visit_kv` per field in order with the borrowed field name wrapped as
a `Value`, then `close_struct`; a struct with fields x = 1, y = "a" named
"Point" records named_type("Point"), open_struct, visit_kv("x", 1),
visit_kv("y", "a"), close_struct — also when `named_type` errors. -/
theorem C3_visit_struct {σ E : Type} (V : Visit σ E) (name : String)
    (fields : List (String × Value)) (s : σ) :
    (Visit.visit_struct V name fields s =
      Visit.visit_struct (suppressNT V) name fields s) ∧
    (Visit.visit_struct (recOk E) "Point"
        [("x", Value.borrowed (.vu64 1)), ("y", Value.borrowed (.vstr "a"))] [] =
      ([.cnamedType "Point", .copenStruct,
        .ckv (.borrowed (.vstr "x")) (.borrowed (.vu64 1)),
        .ckv (.borrowed (.vstr "y")) (.borrowed (.vstr "a")),
        .ccloseStruct], none)) ∧
    (Visit.visit_struct (record failNamedType) "Point"
        [("x", Value.borrowed (.vu64 1)), ("y", Value.borrowed (.vstr "a"))] [] =
      ([.cnamedType "Point", .copenStruct,
        .ckv (.borrowed (.vstr "x")) (.borrowed (.vu64 1)),
        .ckv (.borrowed (.vstr "y")) (.borrowed (.vstr "a")),
        .ccloseStruct], none)) := by
  refine ⟨?_, ?_, ?_⟩
  · rw [Visit.visit_struct, Visit.visit_struct, suppressNT_named_type,
      suppressNT_open_struct]
    simp only [fieldLoop_suppressNT, suppressNT_close_struct]
  · simp [Visit.visit_struct, Visit.fieldLoop, vthen]
  · simp [Visit.visit_struct, Visit.fieldLoop, vthen, failNamedType]

/-- C9: the tuple-struct helper calls `named_type(name)` and discards its
result: its outcome is exactly that of the `visit_tuple` helper run from
the state `named_type` left behind (so it is determined solely by
`open_tuple`, the positional field visits and `close_tuple`), it is
unchanged when `named_type`'s error is suppressed, and with a visitor
whose `named_type` always errors the traversal still completes in
full. -/
theorem C9_visit_tuple_struct {σ E : Type} (V : Visit σ E) (name : String)
    (fields : List Value) (s : σ) :
    (Visit.visit_tuple_struct V name fields s =
      Visit.visit_tuple V fields (V.named_type name s).1) ∧
    (Visit.visit_tuple_struct V name fields s =
      Visit.visit_tuple_struct (suppressNT V) name fields s) ∧
    (Visit.visit_tuple_struct (record failNamedType) "P"
        [Value.borrowed (.vu64 1), Value.borrowed (.vu64 2)] [] =
      ([.cnamedType "P", .copenTuple, .cuint 1, .cuint 2, .ccloseTuple], none)) := by
  refine ⟨?_, ?_, ?_⟩
  · rw [Visit.visit_tuple_struct, Visit.visit_tuple]
  · rw [Visit.visit_tuple_struct, Visit.visit_tuple_struct, suppressNT_named_type,
      suppressNT_open_tuple]
    simp only [visitElems_suppressNT, suppressNT_close_tuple]
  · simp [Visit.visit_tuple_struct, Visit.visitElems, Value.visit, Val.visit,
      vthen, failNamedType]

/-- C6: visiting the `BTreeMap` built by any insertion sequence produces
`open_map`, then exactly one `visit_kv` call per entry with the key-value
pairs in strictly ascending key order (the guaranteed `BTreeMap`
iteration order), then `close_map`. -/
theorem C6_btreemap_ascending {E : Type} (ins : List (Nat × Val)) (sc : List Call) :
    (Val.visit (.vbtreeMap (btreeEntries (btreeOfInserts ins))) (recOk E) sc =
      (sc ++ .copenMap ::
        (((btreeOfInserts ins).map fun p =>
            Call.ckv (.borrowed (.vu64 p.1)) (.borrowed p.2)) ++ [.ccloseMap]),
        none)) ∧
    ((btreeOfInserts ins).map Prod.fst).Pairwise (· < ·) := by
  constructor
  · simp [visit_recOk_val, Val.trace, btreeEntries, List.map_map, Function.comp]
  · exact List.pairwise_map.mpr (btreeOfInserts_pairwise ins)

/-- C8: for a describable value built from deterministic (non-hash-based)
containers and scalars, visiting it twice through two independent
carriers (one borrowed, one owned, against independently started
recording visitors) succeeds both times and emits the same call sequence
— the traversal is a deterministic function of the value, namely
`Val.trace`. -/
theorem C8_deterministic_trace {E : Type} (v : Val) (s1 s2 : List Call)
    (h : Val.deterministic v = true) :
    (Value.visit (.borrowed v) (recOk E) s1).2 = none ∧
    (Value.visit (.owned v) (recOk E) s2).2 = none ∧
    (Value.visit (.borrowed v) (recOk E) s1).1.drop s1.length =
      (Value.visit (.owned v) (recOk E) s2).1.drop s2.length ∧
    (Value.visit (.borrowed v) (recOk E) s1).1.drop s1.length = Val.trace v := by
  simp [visit_recOk_value, Value.trace]

/-- C8 witness: the determinism property applied to the concrete
deterministic value `Vec[1]`, visited from two different recording-visitor
states. -/
theorem C8_deterministic_trace_witness :
    Val.deterministic (.vvec [.vu64 1]) = true ∧
    ((Value.visit (.borrowed (.vvec [.vu64 1])) (recOk Unit) []).2 = none ∧
     (Value.visit (.owned (.vvec [.vu64 1])) (recOk Unit) [.cbool true]).2 = none ∧
     (Value.visit (.borrowed (.vvec [.vu64 1])) (recOk Unit) []).1.drop
         (List.length ([] : List Call)) =
       (Value.visit (.owned (.vvec [.vu64 1])) (recOk Unit) [.cbool true]).1.drop
         (List.length [Call.cbool true]) ∧
     (Value.visit (.borrowed (.vvec [.vu64 1])) (recOk Unit) []).1.drop
         (List.length ([] : List Call)) = Val.trace (.vvec [.vu64 1])) :=
  ⟨by simp [Val.deterministic, Val.deterministicL],
   C8_deterministic_trace (.vvec [.vu64 1]) [] [.cbool true]
     (by simp [Val.deterministic, Val.deterministicL])⟩

/-- C10: on an empty iterator the orchestration helpers still emit the
full bracket pair: `visit_map`, `visit_list` and `visit_tuple` call the
opening bracket and, when it succeeds, immediately the closing bracket,
returning the closing call's result; concretely an empty `BTreeMap`,
`Vec` and `HashSet` record exactly the bracket pair. -/
theorem C10_empty_brackets {σ E : Type} (V : Visit σ E) (s s1 : σ) :
    (V.open_map s = (s1, none) → Visit.visit_map V [] s = V.close_map s1) ∧
    (V.open_list s = (s1, none) → Visit.visit_list V [] s = V.close_list s1) ∧
    (V.open_tuple s = (s1, none) → Visit.visit_tuple V [] s = V.close_tuple s1) ∧
    (Val.visit (.vbtreeMap []) (recOk E) [] = ([.copenMap, .ccloseMap], none)) ∧
    (Val.visit (.vvec []) (recOk E) [] = ([.copenList, .ccloseList], none)) ∧
    (Val.visit (.vhashSet []) (recOk E) [] = ([.copenTuple, .ccloseTuple], none)) := by
  refine ⟨?_, ?_, ?_, ?_, ?_, ?_⟩
  · intro h; simp [Visit.visit_map, Visit.kvLoop, vthen, h]
  · intro h; simp [Visit.visit_list, Visit.visitElems, vthen, h]
  · intro h; simp [Visit.visit_tuple, Visit.visitElems, vthen, h]
  all_goals simp [visit_recOk_val, Val.trace, traceElems]

/-- C10 witness: the empty-bracket property applied to the recording
visitor, whose opening brackets succeed. -/
theorem C10_empty_brackets_witness :
    (Visit.visit_map (recOk Nat) [] [] = (recOk Nat).close_map [.copenMap]) ∧
    (Visit.visit_list (recOk Nat) [] [] = (recOk Nat).close_list [.copenList]) ∧
    (Visit.visit_tuple (recOk Nat) [] [] = (recOk Nat).close_tuple [.copenTuple]) :=
  ⟨(C10_empty_brackets (recOk Nat) [] [.copenMap]).1 (by simp),
   (C10_empty_brackets (recOk Nat) [] [.copenList]).2.1 (by simp),
   (C10_empty_brackets (recOk Nat) [] [.copenTuple]).2.2.1 (by simp)⟩
